import Mathlib

/-!
# ipfs-mgm: the `sync` command

A shallow embedding of `internal/sync/main.go`: the transfer worker
`AsyncPostIPFS` and the scheduling loop of `Sync`.

Conventions.
* A Go result pair `(v, err)` is a Lean pair `(v, err)` whose second component is
  `none` for `nil` and `some msg` for an error.
* The functions of package `utils` are collaborators whose code is not part of this
  file; they are the fields of `Utils`. A network call is not a function of its
  arguments alone, so the scheduler hands the goroutine launched for list position `k`
  the collaborators `world k`.
* Go `int` values are modelled by `Int` (counters, sequence numbers) and by `Nat`
  (indices and lengths, which never go below zero). The counters of a run are bounded by
  twice the length of the list, far below `2 ^ 63`, so no wrap-around is modelled.
* Every collaborator call, every `log.Printf` line and every increment of a shared
  counter is recorded, in program order, in a trace of `Event`s. The deferred
  `Body.Close()` calls are not recorded.
* The scheduling loop applies the workers it launches to the shared counters one after
  another, in launch order. Goroutines that really alternate are the subject of the
  separate step relation `interleave`.
-/

namespace IpfsMgm

/-- A Go `error` value: `none` is `nil`. -/
abbrev GoError := Option String

/-- The part of `*http.Response` the worker touches. -/
structure HTTPResponse where
  Body : String
deriving DecidableEq

/-- The record `utils.IPFSCIDResponse`; only the field `Cid` is read. -/
structure IPFSCIDResponse where
  Cid : String
deriving DecidableEq

/-- The record `utils.IPFSResponse`; only the field `Hash` is read. -/
structure IPFSResponse where
  Hash : String
deriving DecidableEq

/-- The functions and constants of package `utils` used by `AsyncPostIPFS`. -/
structure Utils where
  IPFS_PIN_ENDPOINT : String
  GetIPFS : String → HTTPResponse × GoError
  GetCIDVersion : String → String
  GetHTTPBody : HTTPResponse → String × GoError
  PostIPFS : String → String → HTTPResponse × GoError
  UnmarshalToStruct : String → IPFSResponse → IPFSResponse × GoError
  TestIPFSHash : String → String → Bool × GoError

/-- Modelled from the spec: `utils.TestIPFSHash`, whose code is not in the sources at
hand. The spec gives it as the identity verifier
`matches(originalCID, resultingHash) -> (bool, error)`, an exact string match that is a
pure function of its two arguments; a mismatch is reported through the error. -/
def TestIPFSHash (cidID hash : String) : Bool × GoError :=
  if cidID = hash then (true, none)
  else (false,
    some ("The source Hash " ++ cidID ++ " is different from the destination hash " ++ hash))

/-- The two shared run counters, the variables `failed` and `synced` of `Sync`. -/
inductive Cell where
  | failed
  | synced
deriving DecidableEq

/-- What a worker does that is visible from outside. -/
inductive Event where
  /-- A line `log.Printf("%d/%d: <msg>", *counter, length, ...)`. -/
  | log (counter length : Int) (msg : String)
  /-- A call `utils.GetIPFS(url, nil)`. -/
  | getIPFS (url : String)
  /-- A call `utils.GetHTTPBody(resG)`. -/
  | getHTTPBody
  /-- A call `utils.PostIPFS(url, body)`. -/
  | postIPFS (url body : String)
  /-- A call `utils.UnmarshalToStruct(resP.Body, &m)`. -/
  | unmarshalToStruct (body : String)
  /-- A call `utils.TestIPFSHash(cidID, hash)`. -/
  | testIPFSHash (cidID hash : String)
  /-- An execution of `*failed += 1` or of `*synced += 1`. -/
  | incr (cell : Cell)
deriving DecidableEq

/-- Whether the event is an upload request. -/
def Event.isPostIPFS : Event → Bool
  | .postIPFS _ _ => true
  | _ => false

/-- Whether the event is a run of the verification. -/
def Event.isTestIPFSHash : Event → Bool
  | .testIPFSHash _ _ => true
  | _ => false

/-- The counter an event increments, if it is an increment. -/
def Event.cell? : Event → Option Cell
  | .incr c => some c
  | _ => none

/-- The increments of the shared counters recorded in a trace, in program order. -/
def increments (t : List Event) : List Cell :=
  t.filterMap Event.cell?

/-- The three cells `AsyncPostIPFS` reaches through its pointer arguments, and its
trace. -/
structure WorkerState where
  counter : Int
  failed : Int
  synced : Int
  trace : List Event
deriving DecidableEq

/-- The statement `if err != nil` followed by a `log.Printf("%d/%d: %s", *counter, length, err)`
and nothing else (lines 153-155 and 169-171): the lines it logs. -/
def logIfErr (counter length : Int) (err : GoError) : List Event :=
  match err with
  | some e => [Event.log counter length e]
  | none => []

/-- The upload (lines 157-172): on an error `failed` is incremented and `m` keeps its
zero value, otherwise the response is decoded into `m` and a decoding error is only
logged. Returns `m` and the state. -/
def uploadStep (u : Utils) (apiADD newBody : String) (length : Int)
    (st : WorkerState) : IPFSResponse × WorkerState :=
  let m : IPFSResponse := { Hash := "" }
  let r := u.PostIPFS apiADD newBody
  match r.2 with
  | some e =>
    (m, { st with
          failed := st.failed + 1
          trace := st.trace ++
            [Event.postIPFS apiADD newBody, Event.log st.counter length e,
             Event.incr Cell.failed] })
  | none =>
    let d := u.UnmarshalToStruct r.1.Body m
    (d.1, { st with
            trace := st.trace ++
              [Event.postIPFS apiADD newBody, Event.unmarshalToStruct r.1.Body] ++
              logIfErr st.counter length d.2 })

/-- The verification and the counter update that follows it (lines 174-184). `st` is the
state reached so far and `hash` is `m.Hash`. -/
def verifyStep (u : Utils) (cidID : String) (length : Int) (hash : String)
    (st : WorkerState) : WorkerState :=
  let r := u.TestIPFSHash cidID hash
  match r.2 with
  | some e =>
    { st with
      failed := st.failed + 1
      trace := st.trace ++
        [Event.testIPFSHash cidID hash, Event.log st.counter length e,
         Event.incr Cell.failed] }
  | none =>
    { st with
      synced := st.synced + 1
      trace := st.trace ++
        [Event.testIPFSHash cidID hash, Event.log st.counter length (toString r.1),
         Event.incr Cell.synced] }

/-- The function `AsyncPostIPFS(src, dst, cidID, counter, length, failed, synced)`.
The three pointer arguments are passed as the values they point to and come back in
the result. -/
def AsyncPostIPFS (u : Utils) (src dst cidID : String) (counter length failed synced : Int) :
    WorkerState :=
  let srcCID := src ++ cidID
  let st0 : WorkerState :=
    { counter := counter, failed := failed, synced := synced,
      trace := [Event.log counter length ("Syncing the CID: " ++ cidID), Event.getIPFS srcCID] }
  let g := u.GetIPFS srcCID
  match g.2 with
  | some e =>
    { st0 with
      failed := st0.failed + 1
      counter := st0.counter + 1
      trace := st0.trace ++
        [Event.log counter length (e ++ "; CID: " ++ cidID), Event.incr Cell.failed] }
  | none =>
    let cidV := u.GetCIDVersion cidID
    let apiADD := dst ++ u.IPFS_PIN_ENDPOINT ++ "?cid-version=" ++ cidV
    let b := u.GetHTTPBody g.1
    let st1 : WorkerState :=
      { st0 with trace := st0.trace ++ [Event.getHTTPBody] ++ logIfErr counter length b.2 }
    let p := uploadStep u apiADD b.1 length st1
    verifyStep u cidID length p.1.Hash p.2

/-- A goroutine launch `go func(c int, cidID string)(counter, cids[i].Cid)`: the two
arguments, evaluated by the launching goroutine. -/
structure Launch where
  c : Int
  cidID : String
deriving DecidableEq

/-- The variables of `Sync` that its scheduling loop (lines 99-126) reads and writes,
with a record of the goroutines launched. `window` holds the launches since the last
`wg.Wait()` and `windows` the windows already joined, oldest first. -/
structure SyncState where
  i : Nat
  counter : Int
  failed : Int
  synced : Int
  window : List Launch
  windows : List (List Launch)
  trace : List Event
deriving DecidableEq

/-- How a run of the scheduling loop ends. -/
inductive SyncResult where
  /-- The loop was left and line 129 printed
  `Total number of objects: total; Synced: synced; Failed: failed`. -/
  | summary (total : Nat) (synced failed : Int) (s : SyncState)
  /-- The read `cids[i]` on line 118, made by the launching goroutine, found `i` outside
  the slice: a Go run-time panic `index out of range [index] with length length`, which
  ends the process before the barrier and before the summary. -/
  | indexOutOfRange (index length : Nat) (s : SyncState)
  /-- The model ran out of fuel with the loop condition still true. -/
  | outOfFuel (s : SyncState)
deriving DecidableEq

/-- The inner loop `for j := 0; j < workerItemCount; j++` (lines 112-122), with `n` the
number of iterations still to run. Each iteration reads `cids[i]`, launches the
goroutine `go func(c int, cidID string)` on the arguments `(counter, cids[i].Cid)`, and
advances `counter` and `i`. The goroutine calls
`AsyncPostIPFS(srcGet, dst, cidID, &c, length, &failed, &synced)` on its own parameters
`c` and `cidID`. The workers are applied to the shared counters one after another, in
launch order; the worker's own increment of its copy `c` is not seen by the loop. -/
def launchLoop (world : Nat → Utils) (srcGet dst : String) (cids : List IPFSCIDResponse) :
    Nat → SyncState → Except SyncState SyncState
  | 0, s => .ok s
  | n + 1, s =>
    match cids[s.i]? with
    | none => .error s
    | some cid =>
      let l : Launch := { c := s.counter, cidID := cid.Cid }
      let r := AsyncPostIPFS (world s.i) srcGet dst l.cidID l.c cids.length s.failed s.synced
      launchLoop world srcGet dst cids n
        { i := s.i + 1
          counter := s.counter + 1
          failed := r.failed
          synced := r.synced
          window := s.window ++ [l]
          windows := s.windows
          trace := s.trace ++ r.trace }

/-- The outer loop `for i := 0; i < length; ` (lines 107-126). One unit of fuel pays for
one iteration: the inner loop followed by the barrier `wg.Wait()`. -/
def windowLoop (world : Nat → Utils) (srcGet dst : String) (cids : List IPFSCIDResponse)
    (workerItemCount : Nat) : Nat → SyncState → SyncResult
  | 0, s =>
    if s.i < cids.length then .outOfFuel s
    else .summary cids.length s.synced s.failed s
  | fuel + 1, s =>
    if s.i < cids.length then
      match launchLoop world srcGet dst cids workerItemCount s with
      | .error s1 => .indexOutOfRange s1.i cids.length s1
      | .ok s1 =>
        windowLoop world srcGet dst cids workerItemCount fuel
          { s1 with window := [], windows := s1.windows ++ [s1.window] }
    else .summary cids.length s.synced s.failed s

/-- The effective batch size (lines 102-105): `workerItemCount` after
`if length < workerItemCount` has run its assignment `workerItemCount = length`. -/
def adjust (length workerItemCount : Nat) : Nat :=
  if length < workerItemCount then length else workerItemCount

/-- The state at line 107: `counter := 1`, `i := 0`, both counters 0. -/
def SyncState.init : SyncState :=
  { i := 0, counter := 1, failed := 0, synced := 0, window := [], windows := [], trace := [] }

/-- The function `Sync` from line 96 on, for the CID list `cids` and the value
`workerItemCount` of the package variable at entry (50 unless changed; a `Nat` here, the
value is never negative). `catEndpoint` is the constant `utils.IPFS_CAT_ENDPOINT`. -/
def Sync (world : Nat → Utils) (src dst catEndpoint : String) (cids : List IPFSCIDResponse)
    (workerItemCount fuel : Nat) : SyncResult :=
  let srcGet := src ++ catEndpoint
  windowLoop world srcGet dst cids (adjust cids.length workerItemCount) fuel SyncState.init

/-- The windows launched in the state `s`, the one still open included when it is not
empty. -/
def SyncState.launched (s : SyncState) : List (List Launch) :=
  if s.window = [] then s.windows else s.windows ++ [s.window]

/-- The final state of a run. -/
def SyncResult.state : SyncResult → SyncState
  | .summary _ _ _ s => s
  | .indexOutOfRange _ _ s => s
  | .outOfFuel s => s

/-- The summary line of a run that printed it: `(total, synced, failed)`. -/
def SyncResult.summary? : SyncResult → Option (Nat × Int × Int)
  | .summary total synced failed _ => some (total, synced, failed)
  | _ => none

/-- The index and the slice length of the out-of-range read that ended the run, if one
did. -/
def SyncResult.panic? : SyncResult → Option (Nat × Nat)
  | .indexOutOfRange index length _ => some (index, length)
  | _ => none

/-- Whether the model stopped for lack of fuel. -/
def SyncResult.starved : SyncResult → Bool
  | .outOfFuel _ => true
  | _ => false

/-- The launches the loop makes for the first `n` list positions when sequence number
and index advance together: position `k` gets the sequence number `k + 1`. -/
def positions (cids : List IPFSCIDResponse) (n : Nat) : List Launch :=
  (List.range n).filterMap fun (k : Nat) =>
    (cids[k]?).map fun cid => { c := (k : Int) + 1, cidID := cid.Cid }

/-- The URL of the upload request for `cidID` (line 150). -/
def apiADD (u : Utils) (dst cidID : String) : String :=
  dst ++ u.IPFS_PIN_ENDPOINT ++ "?cid-version=" ++ u.GetCIDVersion cidID

/-- The result pair of the source fetch for `cidID` (line 139). -/
def fetched (u : Utils) (src cidID : String) : HTTPResponse × GoError :=
  u.GetIPFS (src ++ cidID)

/-- The result pair of the upload request for `cidID` (line 160). -/
def uploaded (u : Utils) (src dst cidID : String) : HTTPResponse × GoError :=
  u.PostIPFS (apiADD u dst cidID) (u.GetHTTPBody (fetched u src cidID).1).1

/-- The value of `m.Hash` once the response to a successful upload request has been
decoded (line 168). -/
def resultingHash (u : Utils) (src dst cidID : String) : String :=
  (u.UnmarshalToStruct (uploaded u src dst cidID).1.Body { Hash := "" }).1.Hash

/-! ## Goroutines of one window running at the same time

Within a window the workers are goroutines that share `failed` and `synced` through
plain `*int` pointers. The source takes no lock and uses no atomic operation, so
`*p += 1` is a read of `*p` followed, later, by a write of the value read plus one, and
the steps of different goroutines may alternate in any order. -/

/-- The shared counters. -/
structure Mem where
  failed : Int
  synced : Int
deriving DecidableEq

/-- The value of a counter. -/
def Mem.read (m : Mem) : Cell → Int
  | .failed => m.failed
  | .synced => m.synced

/-- The counters after a write to one of them. -/
def Mem.write (m : Mem) : Cell → Int → Mem
  | .failed, v => { m with failed := v }
  | .synced, v => { m with synced := v }

/-- A running worker, as far as the shared counters go: the increments it still has to
make, and the value it has read when it stands between the read and the write of its
next increment. -/
structure Goroutine where
  todo : List Cell
  loaded : Option Int
deriving DecidableEq

/-- The goroutine `go func(c, cidID)` at its start: its increments are those in the
trace of `AsyncPostIPFS`. -/
def Goroutine.start (u : Utils) (src dst cidID : String) (counter length : Int) : Goroutine :=
  { todo := increments (AsyncPostIPFS u src dst cidID counter length 0 0).trace, loaded := none }

/-- Whether the goroutine has returned. -/
def Goroutine.finished (g : Goroutine) : Bool :=
  g.todo.isEmpty && g.loaded.isNone

/-- One step of a goroutine: the read of its next increment, or the write that
completes it. -/
def Goroutine.step (m : Mem) (g : Goroutine) : Mem × Goroutine :=
  match g.todo, g.loaded with
  | [], _ => (m, g)
  | c :: _, none => (m, { g with loaded := some (m.read c) })
  | c :: rest, some v => (m.write c (v + 1), { todo := rest, loaded := none })

/-- The goroutines `gs` run under the schedule `sched`, which names, step by step, the
goroutine that moves. -/
def interleave (m : Mem) (gs : List Goroutine) : List Nat → Mem × List Goroutine
  | [] => (m, gs)
  | k :: sched =>
    match gs[k]? with
    | none => interleave m gs sched
    | some g => interleave (g.step m).1 (gs.set k (g.step m).2) sched

/-! ## Collaborators used in the examples -/

/-- Both endpoints answer, and the destination reports the identifier `hash`. -/
def healthy (hash : String) : Utils :=
  { IPFS_PIN_ENDPOINT := "/api/v0/add"
    GetIPFS := fun _ => ({ Body := "data" }, none)
    GetCIDVersion := fun _ => "0"
    GetHTTPBody := fun r => (r.Body, none)
    PostIPFS := fun _ _ => ({ Body := "response" }, none)
    UnmarshalToStruct := fun _ _ => ({ Hash := hash }, none)
    TestIPFSHash := TestIPFSHash }

/-- The source does not answer: every fetch returns an error. -/
def sourceDown : Utils :=
  { healthy "" with GetIPFS := fun _ => ({ Body := "" }, some "connection refused") }

/-- The destination does not answer: every upload request returns an error. -/
def destinationDown : Utils :=
  { healthy "" with PostIPFS := fun _ _ => ({ Body := "" }, some "connection refused") }

/-- The two goroutines of the one window of a run over `["cid1", "cid2"]` while the source
does not answer. -/
def twoFailingFetches : List Goroutine :=
  [Goroutine.start sourceDown "http://src/api/v0/cat?arg=" "http://dst" "cid1" 1 2,
   Goroutine.start sourceDown "http://src/api/v0/cat?arg=" "http://dst" "cid2" 2 2]

/-- The loop invariant of `Sync`: the sequence number is one ahead of the index, the
index is inside the list or just past its end, the launches made are those of the
positions passed, in order, and every window already joined has `e` launches. -/
structure Lockstep (cids : List IPFSCIDResponse) (e : Nat) (s : SyncState) : Prop where
  counter_eq : s.counter = (s.i : Int) + 1
  i_le : s.i ≤ cids.length
  launches_eq : s.windows.flatten ++ s.window = positions cids s.i
  windows_len : ∀ w ∈ s.windows, w.length = e

/-- The events of the workers for the first `n` list positions when the worker for
position `k` is called on the CID `cids[k]` and the sequence number `k + 1`, one worker
after the other. The trace of a worker does not depend on the counter values it starts
from, which are taken as 0 here. -/
def workerTraces (world : Nat → Utils) (srcGet dst : String) (cids : List IPFSCIDResponse) :
    Nat → List Event
  | 0 => []
  | n + 1 =>
    workerTraces world srcGet dst cids n ++
      (match cids[n]? with
       | some cid =>
         (AsyncPostIPFS (world n) srcGet dst cid.Cid ((n : Int) + 1) cids.length 0 0).trace
       | none => [])

/-- The second loop invariant of `Sync`, on what the workers were called with and did:
the trace of the run is that of the workers of the positions passed, each called on
its CID and on its position plus one, and the two counters hold the number of
increments recorded in the trace. -/
structure Traced (world : Nat → Utils) (srcGet dst : String) (cids : List IPFSCIDResponse)
    (s : SyncState) : Prop where
  counter_eq : s.counter = (s.i : Int) + 1
  trace_eq : s.trace = workerTraces world srcGet dst cids s.i
  failed_eq : s.failed = ((increments s.trace).count Cell.failed : Nat)
  synced_eq : s.synced = ((increments s.trace).count Cell.synced : Nat)

/-! ## The worker -/

theorem increments_append (t1 t2 : List Event) :
    increments (t1 ++ t2) = increments t1 ++ increments t2 := by
  simp [increments, List.filterMap_append]

theorem increments_nil : increments [] = [] := rfl

theorem increments_cons (e : Event) (t : List Event) :
    increments (e :: t) = (Event.cell? e).toList ++ increments t := by
  cases h : Event.cell? e <;> simp [increments, List.filterMap_cons, h]

theorem increments_logIfErr (counter length : Int) (err : GoError) :
    increments (logIfErr counter length err) = [] := by
  cases err <;> rfl

/-- The counters after `uploadStep`, by the error result of the upload request. -/
theorem uploadStep_counters (u : Utils) (apiADD newBody : String) (length : Int)
    (st : WorkerState) :
    (uploadStep u apiADD newBody length st).2.synced = st.synced ∧
    (uploadStep u apiADD newBody length st).2.counter = st.counter ∧
    (uploadStep u apiADD newBody length st).2.failed =
      (if (u.PostIPFS apiADD newBody).2 = none then st.failed else st.failed + 1) ∧
    (uploadStep u apiADD newBody length st).1.Hash =
      (if (u.PostIPFS apiADD newBody).2 = none then
        (u.UnmarshalToStruct (u.PostIPFS apiADD newBody).1.Body { Hash := "" }).1.Hash
      else "") := by
  unfold uploadStep
  cases h : (u.PostIPFS apiADD newBody).2 <;> simp [h]

/-- The counters after `verifyStep`, by the error result of the verification. -/
theorem verifyStep_counters (u : Utils) (cidID : String) (length : Int) (hash : String)
    (st : WorkerState) :
    (verifyStep u cidID length hash st).failed =
      (if (u.TestIPFSHash cidID hash).2 = none then st.failed else st.failed + 1) ∧
    (verifyStep u cidID length hash st).synced =
      (if (u.TestIPFSHash cidID hash).2 = none then st.synced + 1 else st.synced) := by
  unfold verifyStep
  cases h : (u.TestIPFSHash cidID hash).2 <;> simp [h]

/-- The verification is part of the trace of `verifyStep`, with the arguments given. -/
theorem verifyStep_trace (u : Utils) (cidID : String) (length : Int) (hash : String)
    (st : WorkerState) :
    Event.testIPFSHash cidID hash ∈ (verifyStep u cidID length hash st).trace := by
  unfold verifyStep
  cases h : (u.TestIPFSHash cidID hash).2 <;> simp [h]

/-- The increments recorded by `uploadStep`. -/
theorem uploadStep_increments (u : Utils) (apiADD newBody : String) (length : Int)
    (st : WorkerState) :
    increments (uploadStep u apiADD newBody length st).2.trace =
      increments st.trace ++
        (if (u.PostIPFS apiADD newBody).2 = none then [] else [Cell.failed]) := by
  unfold uploadStep
  cases h : (u.PostIPFS apiADD newBody).2 <;>
    simp [h, increments_append, increments_cons, increments_nil, increments_logIfErr,
      Event.cell?]

/-- The increments recorded by `verifyStep`. -/
theorem verifyStep_increments (u : Utils) (cidID : String) (length : Int) (hash : String)
    (st : WorkerState) :
    increments (verifyStep u cidID length hash st).trace =
      increments st.trace ++
        (if (u.TestIPFSHash cidID hash).2 = none then [Cell.synced] else [Cell.failed]) := by
  unfold verifyStep
  cases h : (u.TestIPFSHash cidID hash).2 <;>
    simp [h, increments_append, increments_cons, increments_nil, Event.cell?]

/-- The counter an event of the trace names is the one the worker changed: the final
counters are the initial ones plus the increments recorded. -/
theorem AsyncPostIPFS_counters (u : Utils) (src dst cidID : String)
    (counter length failed synced : Int) :
    (AsyncPostIPFS u src dst cidID counter length failed synced).failed =
      failed + (increments
        (AsyncPostIPFS u src dst cidID counter length failed synced).trace).count Cell.failed ∧
    (AsyncPostIPFS u src dst cidID counter length failed synced).synced =
      synced + (increments
        (AsyncPostIPFS u src dst cidID counter length failed synced).trace).count Cell.synced := by
  unfold AsyncPostIPFS
  cases hg : (u.GetIPFS (src ++ cidID)).2 with
  | some e => simp [hg, increments, Event.cell?]
  | none =>
    simp only [hg, verifyStep_counters, verifyStep_increments, uploadStep_counters,
      uploadStep_increments, increments_append, increments_logIfErr]
    split <;> split <;> simp [increments, Event.cell?]
    omega

/-- The trace of a worker, its increments included, does not depend on the values of
the shared counters it starts from. -/
theorem AsyncPostIPFS_trace_counters (u : Utils) (src dst cidID : String)
    (counter length failed synced failed2 synced2 : Int) :
    (AsyncPostIPFS u src dst cidID counter length failed synced).trace =
      (AsyncPostIPFS u src dst cidID counter length failed2 synced2).trace := by
  unfold AsyncPostIPFS
  cases hg : (u.GetIPFS (src ++ cidID)).2 with
  | some e => simp [hg]
  | none =>
    simp only [hg, verifyStep, uploadStep]
    split <;> split <;> simp_all

/-! ## The scheduling loop -/

theorem positions_succ (cids : List IPFSCIDResponse) (n : Nat) (cid : IPFSCIDResponse)
    (h : cids[n]? = some cid) :
    positions cids (n + 1) = positions cids n ++ [{ c := (n : Int) + 1, cidID := cid.Cid }] := by
  simp [positions, List.range_succ, List.filterMap_append, h]

theorem positions_length (cids : List IPFSCIDResponse) :
    ∀ n, n ≤ cids.length → (positions cids n).length = n := by
  intro n
  induction n with
  | zero => intro _; rfl
  | succ n ih =>
    intro hn
    have hlt : n < cids.length := by omega
    rw [positions_succ cids n cids[n] (List.getElem?_eq_getElem hlt)]
    simp [ih (by omega)]

theorem positions_getElem? (cids : List IPFSCIDResponse) :
    ∀ n k, k < n → n ≤ cids.length →
      ∃ cid, cids[k]? = some cid ∧
        (positions cids n)[k]? = some { c := (k : Int) + 1, cidID := cid.Cid } := by
  intro n
  induction n with
  | zero => intro k hk; omega
  | succ n ih =>
    intro k hk hn
    have hlt : n < cids.length := by omega
    rw [positions_succ cids n cids[n] (List.getElem?_eq_getElem hlt)]
    by_cases hkn : k < n
    · obtain ⟨cid, h1, h2⟩ := ih k hkn (by omega)
      refine ⟨cid, h1, ?_⟩
      rw [List.getElem?_append_left (by rw [positions_length cids n (by omega)]; exact hkn)]
      exact h2
    · have hke : k = n := by omega
      subst hke
      refine ⟨cids[k], List.getElem?_eq_getElem hlt, ?_⟩
      rw [List.getElem?_append_right (by rw [positions_length cids k (by omega)])]
      simp [positions_length cids k (by omega)]

theorem Lockstep_init (cids : List IPFSCIDResponse) (e : Nat) :
    Lockstep cids e SyncState.init :=
  { counter_eq := rfl
    i_le := Nat.zero_le _
    launches_eq := rfl
    windows_len := by intro w hw; simp [SyncState.init] at hw }

/-- An inner loop that runs to its end has moved the index by its number of
iterations. -/
theorem launchLoop_ok_i (world : Nat → Utils) (srcGet dst : String)
    (cids : List IPFSCIDResponse) :
    ∀ n s s1, launchLoop world srcGet dst cids n s = .ok s1 → s1.i = s.i + n := by
  intro n
  induction n with
  | zero =>
    intro s s1 h
    simp only [launchLoop, Except.ok.injEq] at h
    simp [← h]
  | succ n ih =>
    intro s s1 h
    unfold launchLoop at h
    cases hc : cids[s.i]? with
    | none => simp [hc] at h
    | some cid =>
      simp only [hc] at h
      have := ih _ _ h
      simp at this
      omega

theorem launchLoop_ok (world : Nat → Utils) (srcGet dst : String)
    (cids : List IPFSCIDResponse) (e : Nat) :
    ∀ n s s1, launchLoop world srcGet dst cids n s = .ok s1 → Lockstep cids e s →
      Lockstep cids e s1 ∧ s1.window.length = s.window.length + n := by
  intro n
  induction n with
  | zero =>
    intro s s1 h hs
    simp only [launchLoop, Except.ok.injEq] at h
    subst h
    exact ⟨hs, rfl⟩
  | succ n ih =>
    intro s s1 h hs
    unfold launchLoop at h
    cases hc : cids[s.i]? with
    | none => simp [hc] at h
    | some cid =>
      simp only [hc] at h
      have hlt : s.i < cids.length := by
        rcases List.getElem?_eq_some.mp hc with ⟨hlt, _⟩
        exact hlt
      have hs2 := ih _ _ h
        { counter_eq := by simp [hs.counter_eq]
          i_le := hlt
          launches_eq := by
            simp only []
            rw [positions_succ cids s.i cid hc, ← hs.launches_eq, hs.counter_eq,
              List.append_assoc]
          windows_len := hs.windows_len }
      refine ⟨hs2.1, ?_⟩
      rw [hs2.2]
      simp
      omega

theorem launchLoop_error (world : Nat → Utils) (srcGet dst : String)
    (cids : List IPFSCIDResponse) (e : Nat) :
    ∀ n s s1, launchLoop world srcGet dst cids n s = .error s1 → Lockstep cids e s →
      Lockstep cids e s1 ∧ s1.i = cids.length ∧ s1.window.length < s.window.length + n := by
  intro n
  induction n with
  | zero =>
    intro s s1 h hs
    simp [launchLoop] at h
  | succ n ih =>
    intro s s1 h hs
    unfold launchLoop at h
    cases hc : cids[s.i]? with
    | none =>
      simp only [hc, Except.error.injEq] at h
      subst h
      have hge : cids.length ≤ s.i := List.getElem?_eq_none_iff.mp hc
      exact ⟨hs, Nat.le_antisymm hs.i_le hge, by omega⟩
    | some cid =>
      simp only [hc] at h
      have hlt : s.i < cids.length := by
        rcases List.getElem?_eq_some.mp hc with ⟨hlt, _⟩
        exact hlt
      have hs2 := ih _ _ h
        { counter_eq := by simp [hs.counter_eq]
          i_le := hlt
          launches_eq := by
            simp only []
            rw [positions_succ cids s.i cid hc, ← hs.launches_eq, hs.counter_eq,
              List.append_assoc]
          windows_len := hs.windows_len }
      refine ⟨hs2.1, hs2.2.1, ?_⟩
      have := hs2.2.2
      simp at this
      omega

/-- The invariant holds in the state every run of the outer loop ends in. -/
theorem windowLoop_lockstep (world : Nat → Utils) (srcGet dst : String)
    (cids : List IPFSCIDResponse) (e : Nat) :
    ∀ fuel s, Lockstep cids e s → s.window = [] →
      Lockstep cids e (windowLoop world srcGet dst cids e fuel s).state := by
  intro fuel
  induction fuel with
  | zero =>
    intro s hs _
    unfold windowLoop
    split <;> exact hs
  | succ fuel ih =>
    intro s hs hw
    unfold windowLoop
    split
    · cases hl : launchLoop world srcGet dst cids e s with
      | error s1 => exact (launchLoop_error world srcGet dst cids e e s s1 hl hs).1
      | ok s1 =>
        have h1 := launchLoop_ok world srcGet dst cids e e s s1 hl hs
        apply ih
        · exact
            { counter_eq := h1.1.counter_eq
              i_le := h1.1.i_le
              launches_eq := by
                have := h1.1.launches_eq
                simpa [List.flatten_append] using this
              windows_len := by
                intro w hmem
                simp only [List.mem_append, List.mem_singleton] at hmem
                rcases hmem with hmem | hmem
                · exact h1.1.windows_len w hmem
                · rw [hmem, h1.2, hw]; simp }
        · rfl
    · exact hs

/-- Fuel for `fuel` windows of `e` items is enough once `fuel * e` covers what is left
of the list. -/
theorem windowLoop_fuel (world : Nat → Utils) (srcGet dst : String)
    (cids : List IPFSCIDResponse) (e : Nat) :
    ∀ fuel s, cids.length ≤ s.i + fuel * e →
      (windowLoop world srcGet dst cids e fuel s).starved = false := by
  intro fuel
  induction fuel with
  | zero =>
    intro s h
    unfold windowLoop
    rw [if_neg (by omega)]
    rfl
  | succ fuel ih =>
    intro s h
    unfold windowLoop
    split
    · cases hl : launchLoop world srcGet dst cids e s with
      | error s1 => rfl
      | ok s1 =>
        apply ih
        have hi := launchLoop_ok_i world srcGet dst cids e s s1 hl
        simp only [hi]
        rw [Nat.succ_mul] at h
        omega
    · rfl

/-- A run that did not stop for lack of fuel ends the same way with more fuel. -/
theorem windowLoop_more_fuel (world : Nat → Utils) (srcGet dst : String)
    (cids : List IPFSCIDResponse) (e extra : Nat) :
    ∀ fuel s, (windowLoop world srcGet dst cids e fuel s).starved = false →
      windowLoop world srcGet dst cids e (fuel + extra) s =
        windowLoop world srcGet dst cids e fuel s := by
  intro fuel
  induction fuel with
  | zero =>
    intro s h
    unfold windowLoop at h
    by_cases hi : s.i < cids.length
    · simp [hi, SyncResult.starved] at h
    · cases extra <;> simp [windowLoop, hi]
  | succ fuel ih =>
    intro s h
    rw [Nat.add_right_comm]
    unfold windowLoop at h ⊢
    by_cases hi : s.i < cids.length
    · simp only [hi, if_true] at h ⊢
      cases hl : launchLoop world srcGet dst cids e s with
      | error s1 => rfl
      | ok s1 =>
        simp only [hl] at h
        exact ih _ h
    · simp [hi]

theorem Sync_more_fuel (world : Nat → Utils) (src dst catEndpoint : String)
    (cids : List IPFSCIDResponse) (workerItemCount fuel extra : Nat)
    (h : (Sync world src dst catEndpoint cids workerItemCount fuel).starved = false) :
    Sync world src dst catEndpoint cids workerItemCount (fuel + extra) =
      Sync world src dst catEndpoint cids workerItemCount fuel :=
  windowLoop_more_fuel world _ dst cids _ extra fuel _ h

theorem Sync_lockstep (world : Nat → Utils) (src dst catEndpoint : String)
    (cids : List IPFSCIDResponse) (workerItemCount fuel : Nat) :
    Lockstep cids (adjust cids.length workerItemCount)
      (Sync world src dst catEndpoint cids workerItemCount fuel).state :=
  windowLoop_lockstep world _ dst cids _ fuel _ (Lockstep_init cids _) rfl

theorem launched_flatten (s : SyncState) :
    s.launched.flatten = s.windows.flatten ++ s.window := by
  unfold SyncState.launched
  split
  · next h => simp [h]
  · simp [List.flatten_append]

theorem flatten_length_of_all (e : Nat) :
    ∀ ws : List (List Launch), (∀ w ∈ ws, w.length = e) → ws.flatten.length = ws.length * e := by
  intro ws
  induction ws with
  | nil => intro _; simp
  | cons w ws ih =>
    intro h
    have h1 : w.length = e := h w (by simp)
    have h2 := ih (fun v hv => h v (by simp [hv]))
    simp [h1, h2, Nat.succ_mul]
    omega

/-- Under the invariant the windows launched, the open one included, are at most
`ceil (length / e)`. -/
theorem launched_length_le (cids : List IPFSCIDResponse) (e : Nat) (s : SyncState)
    (he : 0 < e) (hs : Lockstep cids e s) :
    s.launched.length ≤ (cids.length + e - 1) / e := by
  have hlen : (s.windows.flatten ++ s.window).length = s.i := by
    rw [hs.launches_eq, positions_length cids s.i hs.i_le]
  rw [List.length_append, flatten_length_of_all e s.windows hs.windows_len] at hlen
  have hi := hs.i_le
  rw [Nat.le_div_iff_mul_le he]
  unfold SyncState.launched
  split
  · next h =>
    rw [h] at hlen
    simp at hlen
    omega
  · next h =>
    have hpos : 0 < s.window.length := List.length_pos.mpr h
    simp only [List.length_append, List.length_singleton, Nat.succ_mul]
    omega

/-- Enough fuel for `ceil (length / e)` windows covers the list. -/
theorem ceil_fuel_covers (L e fuel : Nat) (he : 0 < e) (h : (L + e - 1) / e ≤ fuel) :
    L ≤ fuel * e := by
  have h1 := Nat.div_add_mod (L + e - 1) e
  have h2 := Nat.mod_lt (L + e - 1) he
  have h3 : (L + e - 1) / e * e ≤ fuel * e := Nat.mul_le_mul_right e h
  rw [Nat.mul_comm e] at h1
  omega

theorem adjust_eq_min (L B : Nat) : adjust L B = min B L := by
  unfold adjust
  split <;> omega

/-- One item adds 1 to the sum of the two counters, except that an item whose fetch
succeeds and whose upload request returns an error adds 2. -/
theorem AsyncPostIPFS_sum (u : Utils) (src dst cidID : String)
    (counter length failed synced : Int) :
    (AsyncPostIPFS u src dst cidID counter length failed synced).failed +
      (AsyncPostIPFS u src dst cidID counter length failed synced).synced =
    failed + synced +
      (if (fetched u src cidID).2 = none ∧ (uploaded u src dst cidID).2 ≠ none then 2 else 1) := by
  unfold uploaded apiADD fetched AsyncPostIPFS
  cases hg : (u.GetIPFS (src ++ cidID)).2 with
  | some e => simp [hg]; omega
  | none =>
    simp only [hg, verifyStep_counters, uploadStep_counters]
    split <;> split <;> simp_all <;> omega

/-- The inner loop runs to its barrier when the `n` reads it makes are inside the
list. -/
theorem launchLoop_ok_of_fits (world : Nat → Utils) (srcGet dst : String)
    (cids : List IPFSCIDResponse) :
    ∀ n s, s.i + n ≤ cids.length → ∃ s1, launchLoop world srcGet dst cids n s = .ok s1 := by
  intro n
  induction n with
  | zero => intro s _; exact ⟨s, rfl⟩
  | succ n ih =>
    intro s h
    have hlt : s.i < cids.length := by omega
    unfold launchLoop
    rw [List.getElem?_eq_getElem hlt]
    exact ih _ (by simp only []; omega)

/-- The inner loop panics when its `n` reads go past the end of the list. -/
theorem launchLoop_error_of_overrun (world : Nat → Utils) (srcGet dst : String)
    (cids : List IPFSCIDResponse) :
    ∀ n s, s.i ≤ cids.length → cids.length < s.i + n →
      ∃ s1, launchLoop world srcGet dst cids n s = .error s1 := by
  intro n
  induction n with
  | zero =>
    intro s h1 h
    omega
  | succ n ih =>
    intro s h1 h
    unfold launchLoop
    cases hc : cids[s.i]? with
    | none => exact ⟨s, rfl⟩
    | some cid =>
      have hlt : s.i < cids.length := by
        rcases List.getElem?_eq_some.mp hc with ⟨hlt, _⟩
        exact hlt
      exact ih _ (by simp only []; omega) (by simp only []; omega)

theorem Lockstep_join (cids : List IPFSCIDResponse) (e : Nat) (s1 : SyncState)
    (h1 : Lockstep cids e s1) (hw : s1.window.length = e) :
    Lockstep cids e { s1 with window := [], windows := s1.windows ++ [s1.window] } :=
  { counter_eq := h1.counter_eq
    i_le := h1.i_le
    launches_eq := by
      have := h1.launches_eq
      simpa [List.flatten_append] using this
    windows_len := by
      intro w hmem
      simp only [List.mem_append, List.mem_singleton] at hmem
      rcases hmem with hmem | hmem
      · exact h1.windows_len w hmem
      · rw [hmem, hw] }

/-- With enough fuel, a run from a loop head whose distance to the end of the list is a
multiple of the batch size ends in the summary. -/
theorem windowLoop_summary_of_dvd (world : Nat → Utils) (srcGet dst : String)
    (cids : List IPFSCIDResponse) (e : Nat) :
    ∀ fuel s, Lockstep cids e s → s.window = [] → e ∣ cids.length - s.i →
      cids.length ≤ s.i + fuel * e →
      ∃ synced failed, (windowLoop world srcGet dst cids e fuel s).summary?
        = some (cids.length, synced, failed) := by
  intro fuel
  induction fuel with
  | zero =>
    intro s hs hw hd h
    unfold windowLoop
    rw [if_neg (by omega)]
    exact ⟨_, _, rfl⟩
  | succ fuel ih =>
    intro s hs hw hd h
    unfold windowLoop
    by_cases hi : s.i < cids.length
    · rw [if_pos hi]
      have hle : e ≤ cids.length - s.i := Nat.le_of_dvd (by omega) hd
      obtain ⟨s1, hl⟩ := launchLoop_ok_of_fits world srcGet dst cids e s (by omega)
      have h1 := launchLoop_ok world srcGet dst cids e e s s1 hl hs
      have hi1 := launchLoop_ok_i world srcGet dst cids e s s1 hl
      simp only [hl]
      apply ih
      · exact Lockstep_join cids e s1 h1.1 (by rw [h1.2, hw]; simp)
      · rfl
      · simp only [hi1]
        have : cids.length - (s.i + e) = cids.length - s.i - e := by omega
        rw [this]
        exact Nat.dvd_sub' hd (dvd_refl e)
      · simp only [hi1]
        rw [Nat.succ_mul] at h
        omega
    · rw [if_neg hi]
      exact ⟨_, _, rfl⟩

/-- With enough fuel, a run from a loop head whose distance to the end of the list is
not a multiple of the batch size ends in the out-of-range panic, at the index just
past the end of the list. -/
theorem windowLoop_panic_of_not_dvd (world : Nat → Utils) (srcGet dst : String)
    (cids : List IPFSCIDResponse) (e : Nat) :
    ∀ fuel s, Lockstep cids e s → s.window = [] → ¬ e ∣ cids.length - s.i →
      cids.length ≤ s.i + fuel * e →
      (windowLoop world srcGet dst cids e fuel s).panic? = some (cids.length, cids.length) := by
  intro fuel
  induction fuel with
  | zero =>
    intro s hs hw hd h
    exfalso
    apply hd
    have : cids.length - s.i = 0 := by omega
    rw [this]
    exact dvd_zero e
  | succ fuel ih =>
    intro s hs hw hd h
    have hi : s.i < cids.length := by
      by_contra hc
      apply hd
      have : cids.length - s.i = 0 := by omega
      rw [this]
      exact dvd_zero e
    unfold windowLoop
    rw [if_pos hi]
    by_cases hfit : s.i + e ≤ cids.length
    · obtain ⟨s1, hl⟩ := launchLoop_ok_of_fits world srcGet dst cids e s hfit
      have h1 := launchLoop_ok world srcGet dst cids e e s s1 hl hs
      have hi1 := launchLoop_ok_i world srcGet dst cids e s s1 hl
      simp only [hl]
      apply ih
      · exact Lockstep_join cids e s1 h1.1 (by rw [h1.2, hw]; simp)
      · rfl
      · simp only [hi1]
        intro hd2
        apply hd
        have : cids.length - s.i = (cids.length - (s.i + e)) + e := by omega
        rw [this]
        exact Dvd.dvd.add hd2 (dvd_refl e)
      · simp only [hi1]
        rw [Nat.succ_mul] at h
        omega
    · obtain ⟨s1, hl⟩ := launchLoop_error_of_overrun world srcGet dst cids e s hs.i_le
        (by omega)
      have h1 := launchLoop_error world srcGet dst cids e e s s1 hl hs
      simp only [hl, SyncResult.panic?, h1.2.1]

/-- When the run ends in the summary and when in the panic: with `B >= 1` and fuel for
`ceil (L / min B L)` windows, the run prints the summary, with `total = L`, if
`min B L` divides `L`, and otherwise ends in the panic
`index out of range [L] with length L`. -/
theorem Sync_summary_or_panic (world : Nat → Utils) (src dst catEndpoint : String)
    (cids : List IPFSCIDResponse) (B fuel : Nat) (hB : 1 ≤ B)
    (hfuel : (cids.length + adjust cids.length B - 1) / adjust cids.length B ≤ fuel) :
    (adjust cids.length B ∣ cids.length →
      ∃ synced failed, (Sync world src dst catEndpoint cids B fuel).summary?
        = some (cids.length, synced, failed)) ∧
    (¬ adjust cids.length B ∣ cids.length →
      (Sync world src dst catEndpoint cids B fuel).panic?
        = some (cids.length, cids.length)) := by
  have hmin := adjust_eq_min cids.length B
  have hcover : cids.length ≤ SyncState.init.i + fuel * adjust cids.length B := by
    by_cases hL : cids.length = 0
    · simp [hL]
    · have he : 0 < adjust cids.length B := by omega
      have := ceil_fuel_covers cids.length _ fuel he hfuel
      simpa [SyncState.init] using this
  constructor
  · intro hd
    exact windowLoop_summary_of_dvd world _ dst cids _ fuel _ (Lockstep_init cids _) rfl
      (by simpa [SyncState.init] using hd) hcover
  · intro hd
    exact windowLoop_panic_of_not_dvd world _ dst cids _ fuel _ (Lockstep_init cids _) rfl
      (by simpa [SyncState.init] using hd) hcover

theorem Traced_init (world : Nat → Utils) (srcGet dst : String)
    (cids : List IPFSCIDResponse) : Traced world srcGet dst cids SyncState.init :=
  { counter_eq := rfl
    trace_eq := rfl
    failed_eq := rfl
    synced_eq := rfl }

/-- One launch keeps the invariant: the worker is called on the CID read and on the
current sequence number, which is the position plus one. -/
theorem Traced_launch (world : Nat → Utils) (srcGet dst : String)
    (cids : List IPFSCIDResponse) (s : SyncState) (cid : IPFSCIDResponse)
    (hc : cids[s.i]? = some cid) (hs : Traced world srcGet dst cids s) :
    Traced world srcGet dst cids
      { i := s.i + 1
        counter := s.counter + 1
        failed := (AsyncPostIPFS (world s.i) srcGet dst cid.Cid s.counter cids.length
          s.failed s.synced).failed
        synced := (AsyncPostIPFS (world s.i) srcGet dst cid.Cid s.counter cids.length
          s.failed s.synced).synced
        window := s.window ++ [{ c := s.counter, cidID := cid.Cid }]
        windows := s.windows
        trace := s.trace ++ (AsyncPostIPFS (world s.i) srcGet dst cid.Cid s.counter
          cids.length s.failed s.synced).trace } := by
  have hc1 := AsyncPostIPFS_counters (world s.i) srcGet dst cid.Cid s.counter cids.length
    s.failed s.synced
  refine
    { counter_eq := by simp [hs.counter_eq]
      trace_eq := ?_
      failed_eq := ?_
      synced_eq := ?_ }
  · simp only [workerTraces, hc]
    rw [← hs.trace_eq, ← hs.counter_eq,
      AsyncPostIPFS_trace_counters (world s.i) srcGet dst cid.Cid s.counter cids.length
        s.failed s.synced 0 0]
  · simp only [increments_append, List.count_append, Nat.cast_add]
    rw [hc1.1, hs.failed_eq]
  · simp only [increments_append, List.count_append, Nat.cast_add]
    rw [hc1.2, hs.synced_eq]

theorem launchLoop_traced (world : Nat → Utils) (srcGet dst : String)
    (cids : List IPFSCIDResponse) :
    ∀ n s s1,
      (launchLoop world srcGet dst cids n s = .ok s1 ∨
        launchLoop world srcGet dst cids n s = .error s1) →
      Traced world srcGet dst cids s → Traced world srcGet dst cids s1 := by
  intro n
  induction n with
  | zero =>
    intro s s1 h hs
    simp only [launchLoop, Except.ok.injEq, reduceCtorEq, or_false] at h
    subst h
    exact hs
  | succ n ih =>
    intro s s1 h hs
    unfold launchLoop at h
    cases hc : cids[s.i]? with
    | none =>
      simp only [hc, Except.error.injEq, reduceCtorEq, false_or] at h
      subst h
      exact hs
    | some cid =>
      simp only [hc] at h
      exact ih _ _ h (Traced_launch world srcGet dst cids s cid hc hs)

theorem windowLoop_traced (world : Nat → Utils) (srcGet dst : String)
    (cids : List IPFSCIDResponse) (e : Nat) :
    ∀ fuel s, Traced world srcGet dst cids s →
      Traced world srcGet dst cids (windowLoop world srcGet dst cids e fuel s).state := by
  intro fuel
  induction fuel with
  | zero =>
    intro s hs
    unfold windowLoop
    split <;> exact hs
  | succ fuel ih =>
    intro s hs
    unfold windowLoop
    split
    · cases hl : launchLoop world srcGet dst cids e s with
      | error s1 => exact launchLoop_traced world srcGet dst cids e s s1 (Or.inr hl) hs
      | ok s1 =>
        have h1 := launchLoop_traced world srcGet dst cids e s s1 (Or.inl hl) hs
        apply ih
        exact
          { counter_eq := h1.counter_eq
            trace_eq := h1.trace_eq
            failed_eq := h1.failed_eq
            synced_eq := h1.synced_eq }
    · exact hs

theorem Sync_traced (world : Nat → Utils) (src dst catEndpoint : String)
    (cids : List IPFSCIDResponse) (workerItemCount fuel : Nat) :
    Traced world (src ++ catEndpoint) dst cids
      (Sync world src dst catEndpoint cids workerItemCount fuel).state :=
  windowLoop_traced world _ dst cids _ fuel _ (Traced_init world _ dst cids)

/-- The events of the worker for a position below `n` are among those of the first `n`
workers. -/
theorem workerTraces_mem (world : Nat → Utils) (srcGet dst : String)
    (cids : List IPFSCIDResponse) (k : Nat) (cid : IPFSCIDResponse)
    (hc : cids[k]? = some cid) :
    ∀ n, k < n →
      ∀ ev ∈ (AsyncPostIPFS (world k) srcGet dst cid.Cid ((k : Int) + 1) cids.length 0 0).trace,
        ev ∈ workerTraces world srcGet dst cids n := by
  intro n
  induction n with
  | zero => intro hk; omega
  | succ n ih =>
    intro hk ev hev
    unfold workerTraces
    by_cases hkn : k < n
    · exact List.mem_append_left _ (ih hkn ev hev)
    · have hke : k = n := by omega
      subst hke
      apply List.mem_append_right
      simp only [hc]
      exact hev

/-- The first line a worker logs carries the sequence number and the CID it was called
on. -/
theorem AsyncPostIPFS_progress_line (u : Utils) (src dst cidID : String)
    (counter length failed synced : Int) :
    Event.log counter length ("Syncing the CID: " ++ cidID) ∈
      (AsyncPostIPFS u src dst cidID counter length failed synced).trace := by
  unfold AsyncPostIPFS
  cases hg : (u.GetIPFS (src ++ cidID)).2 with
  | some e => simp [hg]
  | none =>
    simp only [hg, verifyStep, uploadStep]
    split <;> split <;> simp_all

/-! ## The worker: what one item does to the counters -/

/-- C4: when the source fetch returns an error, `AsyncPostIPFS` adds exactly 1 to
`failed`, leaves `synced` as it was, and returns: its trace is the progress line, the
fetch, the error line and the one increment, so it holds neither an upload request nor
a run of the verification. This holds for every CID and all counter values. -/
theorem fetch_error_fails_once_and_returns (u : Utils) (src dst cidID : String)
    (counter length failed synced : Int) (e : String)
    (h : (fetched u src cidID).2 = some e) :
    (AsyncPostIPFS u src dst cidID counter length failed synced).failed = failed + 1 ∧
    (AsyncPostIPFS u src dst cidID counter length failed synced).synced = synced ∧
    (AsyncPostIPFS u src dst cidID counter length failed synced).trace =
      [Event.log counter length ("Syncing the CID: " ++ cidID), Event.getIPFS (src ++ cidID),
       Event.log counter length (e ++ "; CID: " ++ cidID), Event.incr Cell.failed] ∧
    (AsyncPostIPFS u src dst cidID counter length failed synced).trace.any
      Event.isPostIPFS = false ∧
    (AsyncPostIPFS u src dst cidID counter length failed synced).trace.any
      Event.isTestIPFSHash = false := by
  unfold fetched at h
  simp [AsyncPostIPFS, h, Event.isPostIPFS, Event.isTestIPFSHash]

theorem fetch_error_fails_once_and_returns_witness :
    (AsyncPostIPFS sourceDown "http://src/api/v0/cat?arg=" "http://dst" "cid2" 2 2 0 1).failed
      = 0 + 1 ∧
    (AsyncPostIPFS sourceDown "http://src/api/v0/cat?arg=" "http://dst" "cid2" 2 2 0 1).synced
      = 1 :=
  ⟨(fetch_error_fails_once_and_returns sourceDown "http://src/api/v0/cat?arg=" "http://dst"
      "cid2" 2 2 0 1 "connection refused" rfl).1,
   (fetch_error_fails_once_and_returns sourceDown "http://src/api/v0/cat?arg=" "http://dst"
      "cid2" 2 2 0 1 "connection refused" rfl).2.1⟩

/-- C5: when the fetch and the upload request both succeed, and the verifier is the
exact string match of the spec, `AsyncPostIPFS` adds exactly 1 to `synced` and leaves
`failed` as it was if the decoded `Hash` equals the CID, and adds exactly 1 to `failed`
and leaves `synced` as it was if the `Hash` differs from the CID. -/
theorem verification_decides_the_outcome (u : Utils) (src dst cidID : String)
    (counter length failed synced : Int)
    (hg : (fetched u src cidID).2 = none) (hp : (uploaded u src dst cidID).2 = none)
    (hv : u.TestIPFSHash = TestIPFSHash) :
    (resultingHash u src dst cidID = cidID →
      (AsyncPostIPFS u src dst cidID counter length failed synced).synced = synced + 1 ∧
      (AsyncPostIPFS u src dst cidID counter length failed synced).failed = failed) ∧
    (resultingHash u src dst cidID ≠ cidID →
      (AsyncPostIPFS u src dst cidID counter length failed synced).failed = failed + 1 ∧
      (AsyncPostIPFS u src dst cidID counter length failed synced).synced = synced) := by
  unfold uploaded apiADD fetched at hp
  unfold fetched at hg
  unfold resultingHash uploaded apiADD fetched
  constructor
  · intro h
    simp [AsyncPostIPFS, hg, uploadStep, verifyStep, hp, hv, TestIPFSHash, h]
  · intro h
    have h2 : ¬ cidID = (u.UnmarshalToStruct
          (u.PostIPFS (dst ++ u.IPFS_PIN_ENDPOINT ++ "?cid-version=" ++ u.GetCIDVersion cidID)
                (u.GetHTTPBody (u.GetIPFS (src ++ cidID)).1).1).1.Body
          { Hash := "" }).1.Hash := fun hh => h hh.symm
    simp [AsyncPostIPFS, hg, uploadStep, verifyStep, hp, hv, TestIPFSHash, h2]

theorem verification_decides_the_outcome_witness :
    ((AsyncPostIPFS (healthy "cid1") "http://src/api/v0/cat?arg=" "http://dst" "cid1"
        1 1 0 0).synced = 0 + 1 ∧
     (AsyncPostIPFS (healthy "cid1") "http://src/api/v0/cat?arg=" "http://dst" "cid1"
        1 1 0 0).failed = 0) ∧
    ((AsyncPostIPFS (healthy "other") "http://src/api/v0/cat?arg=" "http://dst" "cid1"
        1 1 0 0).failed = 0 + 1 ∧
     (AsyncPostIPFS (healthy "other") "http://src/api/v0/cat?arg=" "http://dst" "cid1"
        1 1 0 0).synced = 0) :=
  ⟨(verification_decides_the_outcome (healthy "cid1") "http://src/api/v0/cat?arg="
      "http://dst" "cid1" 1 1 0 0 rfl rfl rfl).1 rfl,
   (verification_decides_the_outcome (healthy "other") "http://src/api/v0/cat?arg="
      "http://dst" "cid1" 1 1 0 0 rfl rfl rfl).2 (by decide)⟩

/-- C6 (fails on the code): for the CID `cid1`, a fetch that succeeds and an upload
request that returns an error, `AsyncPostIPFS` does not skip the verification: the
trace holds the call `TestIPFSHash("cid1", "")`, and the item changes the counters by
`failed + 2`, not by `failed + 1`. -/
theorem upload_error_runs_verification_example :
    (AsyncPostIPFS destinationDown "http://src/api/v0/cat?arg=" "http://dst" "cid1"
      1 1 0 0).trace.any Event.isTestIPFSHash = true ∧
    Event.testIPFSHash "cid1" "" ∈
      (AsyncPostIPFS destinationDown "http://src/api/v0/cat?arg=" "http://dst" "cid1"
        1 1 0 0).trace ∧
    (AsyncPostIPFS destinationDown "http://src/api/v0/cat?arg=" "http://dst" "cid1"
      1 1 0 0).failed = 2 ∧
    (AsyncPostIPFS destinationDown "http://src/api/v0/cat?arg=" "http://dst" "cid1"
      1 1 0 0).synced = 0 := by
  decide

/-- C9: for every non-empty CID whose fetch succeeds and whose upload request returns
an error, with the verifier the exact string match of the spec, the verification still
runs, on the CID and the empty `Hash`, reports the mismatch, and `failed` is incremented
a second time: the item adds exactly 2 to `failed` and leaves `synced` as it was. -/
theorem upload_error_counts_failed_twice (u : Utils) (src dst cidID : String)
    (counter length failed synced : Int) (e : String)
    (hne : cidID ≠ "") (hg : (fetched u src cidID).2 = none)
    (hp : (uploaded u src dst cidID).2 = some e) (hv : u.TestIPFSHash = TestIPFSHash) :
    (AsyncPostIPFS u src dst cidID counter length failed synced).failed = failed + 2 ∧
    (AsyncPostIPFS u src dst cidID counter length failed synced).synced = synced ∧
    Event.testIPFSHash cidID "" ∈
      (AsyncPostIPFS u src dst cidID counter length failed synced).trace ∧
    increments (AsyncPostIPFS u src dst cidID counter length failed synced).trace =
      [Cell.failed, Cell.failed] := by
  unfold uploaded apiADD fetched at hp
  unfold fetched at hg
  simp [AsyncPostIPFS, hg, uploadStep, verifyStep, hp, hv, TestIPFSHash, hne, increments,
    Event.cell?, logIfErr]
  constructor
  · omega
  · cases (u.GetHTTPBody (u.GetIPFS (src ++ cidID)).1).2 <;> simp

theorem upload_error_counts_failed_twice_witness :
    (AsyncPostIPFS destinationDown "http://src/api/v0/cat?arg=" "http://dst" "cid1"
      1 1 0 0).failed = 0 + 2 ∧
    (AsyncPostIPFS destinationDown "http://src/api/v0/cat?arg=" "http://dst" "cid1"
      1 1 0 0).synced = 0 :=
  ⟨(upload_error_counts_failed_twice destinationDown "http://src/api/v0/cat?arg="
      "http://dst" "cid1" 1 1 0 0 "connection refused" (by decide) rfl rfl rfl).1,
   (upload_error_counts_failed_twice destinationDown "http://src/api/v0/cat?arg="
      "http://dst" "cid1" 1 1 0 0 "connection refused" (by decide) rfl rfl rfl).2.1⟩

/-! ## The run: counters, windows, sequence numbers, termination -/

/-- C1 (fails on the code): for the list `["cid1"]` (L = 1) whose fetch succeeds and
whose upload request returns an error, the run ends with the summary
`total = 1, synced = 0, failed = 2`, whatever fuel beyond one window is given: the one
item was counted twice and `synced + failed` is 2, not 1. -/
theorem Sync_one_item_counted_twice (extra : Nat) :
    (Sync (fun _ => destinationDown) "http://src" "http://dst" "/api/v0/cat?arg="
      [{ Cid := "cid1" }] 50 (1 + extra)).summary? = some (1, 0, 2) := by
  rw [Sync_more_fuel _ _ _ _ _ _ 1 extra (by decide)]
  decide

set_option maxRecDepth 100000 in
/-- C2 (fails on the code): for a list of 120 CIDs and batch size 50 the loop joins two
windows of 50 launches, launches 20 more, and then reads `cids[120]`: the run ends in
the panic `index out of range [120] with length 120`, so there is no third window of 20
that reaches its barrier, and no summary. -/
theorem Sync_120_by_50_third_window_panics (extra : Nat) :
    (Sync (fun _ => healthy "QmA") "http://src" "http://dst" "/api/v0/cat?arg="
      (List.replicate 120 { Cid := "QmA" }) 50 (3 + extra)).panic? = some (120, 120) ∧
    (Sync (fun _ => healthy "QmA") "http://src" "http://dst" "/api/v0/cat?arg="
      (List.replicate 120 { Cid := "QmA" }) 50 (3 + extra)).summary? = none ∧
    (Sync (fun _ => healthy "QmA") "http://src" "http://dst" "/api/v0/cat?arg="
      (List.replicate 120 { Cid := "QmA" }) 50 (3 + extra)).state.windows.map List.length
        = [50, 50] ∧
    (Sync (fun _ => healthy "QmA") "http://src" "http://dst" "/api/v0/cat?arg="
      (List.replicate 120 { Cid := "QmA" }) 50 (3 + extra)).state.window.length = 20 := by
  rw [Sync_more_fuel _ _ _ _ _ _ 3 extra (by decide)]
  decide

/-- C3 (fails on the code): for the list `["cid1", "cid2", "cid3"]` (L = 3) and batch
size 2 the second window reads `cids[3]`, which is out of range: the run ends in the
panic `index out of range [3] with length 3` and prints no summary, though every item
was fetched, uploaded and verified without error. -/
theorem Sync_3_by_2_reads_out_of_range (extra : Nat) :
    (Sync (fun _ => healthy "cid1") "http://src" "http://dst" "/api/v0/cat?arg="
      [{ Cid := "cid1" }, { Cid := "cid2" }, { Cid := "cid3" }] 2 (2 + extra)).panic?
        = some (3, 3) ∧
    (Sync (fun _ => healthy "cid1") "http://src" "http://dst" "/api/v0/cat?arg="
      [{ Cid := "cid1" }, { Cid := "cid2" }, { Cid := "cid3" }] 2 (2 + extra)).summary?
        = none := by
  rw [Sync_more_fuel _ _ _ _ _ _ 2 extra (by decide)]
  decide

/-- C7: in every run of the scheduling loop, for every list position `k` the loop has
reached (`k` below the final value of the index `i`), the `k`-th goroutine launched got
the CID `cids[k]` and the sequence number `k + 1`, and the worker was called on these
two: every event of `AsyncPostIPFS` on `cids[k]` and `k + 1` is in the trace of the run,
its progress line `k+1/L: Syncing the CID: cids[k]` among them. The trace of the whole
run is that of the workers of the positions `0` to `i - 1`, each called on its position
plus one, and the final counters are the numbers of increments in that trace. The
counters `AsyncPostIPFS` leaves are the same for any two sequence numbers. -/
theorem Sync_sequence_number_is_position_plus_one (world : Nat → Utils)
    (src dst catEndpoint : String) (cids : List IPFSCIDResponse)
    (workerItemCount fuel k : Nat)
    (hk : k < (Sync world src dst catEndpoint cids workerItemCount fuel).state.i) :
    (∃ cid, cids[k]? = some cid ∧
      (Sync world src dst catEndpoint cids workerItemCount fuel).state.launched.flatten[k]?
        = some { c := (k : Int) + 1, cidID := cid.Cid } ∧
      (∀ ev ∈ (AsyncPostIPFS (world k) (src ++ catEndpoint) dst cid.Cid ((k : Int) + 1)
            cids.length 0 0).trace,
        ev ∈ (Sync world src dst catEndpoint cids workerItemCount fuel).state.trace) ∧
      Event.log ((k : Int) + 1) cids.length ("Syncing the CID: " ++ cid.Cid) ∈
        (Sync world src dst catEndpoint cids workerItemCount fuel).state.trace) ∧
    (Sync world src dst catEndpoint cids workerItemCount fuel).state.trace =
      workerTraces world (src ++ catEndpoint) dst cids
        (Sync world src dst catEndpoint cids workerItemCount fuel).state.i ∧
    (Sync world src dst catEndpoint cids workerItemCount fuel).state.failed =
      ((increments (Sync world src dst catEndpoint cids workerItemCount fuel).state.trace).count
        Cell.failed : Nat) ∧
    (Sync world src dst catEndpoint cids workerItemCount fuel).state.synced =
      ((increments (Sync world src dst catEndpoint cids workerItemCount fuel).state.trace).count
        Cell.synced : Nat) ∧
    ∀ (u : Utils) (srcGet cidID : String) (c1 c2 length failed synced : Int),
      (AsyncPostIPFS u srcGet dst cidID c1 length failed synced).failed =
        (AsyncPostIPFS u srcGet dst cidID c2 length failed synced).failed ∧
      (AsyncPostIPFS u srcGet dst cidID c1 length failed synced).synced =
        (AsyncPostIPFS u srcGet dst cidID c2 length failed synced).synced := by
  have hs := Sync_lockstep world src dst catEndpoint cids workerItemCount fuel
  have ht := Sync_traced world src dst catEndpoint cids workerItemCount fuel
  obtain ⟨cid, h1, h2⟩ := positions_getElem? cids _ k hk hs.i_le
  refine ⟨⟨cid, h1, ?_, ?_, ?_⟩, ht.trace_eq, ht.failed_eq, ht.synced_eq, ?_⟩
  · rw [launched_flatten, hs.launches_eq]
    exact h2
  · intro ev hev
    rw [ht.trace_eq]
    exact workerTraces_mem world _ dst cids k cid h1 _ hk ev hev
  · rw [ht.trace_eq]
    exact workerTraces_mem world _ dst cids k cid h1 _ hk _
      (AsyncPostIPFS_progress_line _ _ _ _ _ _ _ _)
  · intro u srcGet cidID c1 c2 length failed synced
    have h1 := AsyncPostIPFS_counters u srcGet dst cidID c1 length failed synced
    have h2 := AsyncPostIPFS_counters u srcGet dst cidID c2 length failed synced
    have h3 : increments (AsyncPostIPFS u srcGet dst cidID c1 length failed synced).trace =
        increments (AsyncPostIPFS u srcGet dst cidID c2 length failed synced).trace := by
      unfold AsyncPostIPFS
      cases hg : (u.GetIPFS (srcGet ++ cidID)).2 with
      | some e => simp [hg, increments_cons, increments_nil, Event.cell?]
      | none =>
        simp only [hg, verifyStep_increments, uploadStep_increments, uploadStep_counters,
          increments_append, increments_cons, increments_nil, increments_logIfErr,
          Event.cell?]
    rw [h1.1, h1.2, h2.1, h2.2, h3]
    exact ⟨rfl, rfl⟩

theorem Sync_sequence_number_is_position_plus_one_witness :
    (Sync (fun _ => healthy "cid1") "http://src" "http://dst" "/api/v0/cat?arg="
      [{ Cid := "cid1" }, { Cid := "cid2" }, { Cid := "cid3" }] 2 2).state.launched.flatten[2]?
        = some { c := ((2 : Nat) : Int) + 1, cidID := "cid3" } ∧
    Event.log (((2 : Nat) : Int) + 1)
        ([({ Cid := "cid1" } : IPFSCIDResponse), { Cid := "cid2" }, { Cid := "cid3" }].length)
        ("Syncing the CID: " ++ "cid3") ∈
      (Sync (fun _ => healthy "cid1") "http://src" "http://dst" "/api/v0/cat?arg="
        [{ Cid := "cid1" }, { Cid := "cid2" }, { Cid := "cid3" }] 2 2).state.trace := by
  obtain ⟨⟨cid, h1, h2, _, h4⟩, _⟩ :=
    Sync_sequence_number_is_position_plus_one (fun _ => healthy "cid1") "http://src"
      "http://dst" "/api/v0/cat?arg=" [{ Cid := "cid1" }, { Cid := "cid2" }, { Cid := "cid3" }]
      2 2 2 (by decide)
  have hcid : cid = { Cid := "cid3" } := by
    simp at h1
    exact h1.symm
  subst hcid
  exact ⟨h2, h4⟩

/-- The scheduling loop halts for every CID list and every batch size `B >= 1` at entry,
in the summary or in the out-of-range panic. The effective batch size is `min B L`,
which is at least 1 when `L >= 1`; an inner loop that runs to its barrier moves the
index by exactly that amount, and every window joined has that many launches; fuel for
`ceil (L / min B L)` outer iterations is enough for the run to end, at most that many
windows are launched, and for `L = 0` none is. -/
theorem Sync_terminates (world : Nat → Utils) (src dst catEndpoint : String)
    (cids : List IPFSCIDResponse) (B fuel : Nat) (hB : 1 ≤ B)
    (hfuel : (cids.length + adjust cids.length B - 1) / adjust cids.length B ≤ fuel) :
    adjust cids.length B = min B cids.length ∧
    (1 ≤ cids.length → 1 ≤ adjust cids.length B) ∧
    (∀ s s1, launchLoop world (src ++ catEndpoint) dst cids (adjust cids.length B) s = .ok s1 →
      s1.i = s.i + adjust cids.length B) ∧
    (∀ w ∈ (Sync world src dst catEndpoint cids B fuel).state.windows,
      w.length = adjust cids.length B) ∧
    (Sync world src dst catEndpoint cids B fuel).starved = false ∧
    (Sync world src dst catEndpoint cids B fuel).state.launched.length ≤
      (cids.length + adjust cids.length B - 1) / adjust cids.length B ∧
    (cids.length = 0 → (Sync world src dst catEndpoint cids B fuel).state.launched = []) := by
  have hmin := adjust_eq_min cids.length B
  have hs := Sync_lockstep world src dst catEndpoint cids B fuel
  refine ⟨hmin, fun hL => by omega, ?_, hs.windows_len, ?_, ?_, ?_⟩
  · intro s s1 h
    exact launchLoop_ok_i world _ dst cids _ s s1 h
  · apply windowLoop_fuel
    by_cases hL : cids.length = 0
    · simp [hL, SyncState.init]
    · have he : 0 < adjust cids.length B := by omega
      have := ceil_fuel_covers cids.length _ fuel he hfuel
      simpa [SyncState.init] using this
  · by_cases hL : cids.length = 0
    · have hnil : cids = [] := List.length_eq_zero.mp hL
      subst hnil
      cases fuel <;> simp [Sync, windowLoop, SyncResult.state, SyncState.launched,
        SyncState.init]
    · exact launched_length_le cids _ _ (by omega) hs
  · intro hL
    have hnil : cids = [] := List.length_eq_zero.mp hL
    subst hnil
    cases fuel <;> simp [Sync, windowLoop, SyncResult.state, SyncState.launched,
      SyncState.init]

set_option maxRecDepth 100000 in
theorem Sync_terminates_witness :
    (Sync (fun _ => healthy "QmA") "http://src" "http://dst" "/api/v0/cat?arg="
      (List.replicate 100 { Cid := "QmA" }) 50 2).starved = false ∧
    (Sync (fun _ => healthy "QmA") "http://src" "http://dst" "/api/v0/cat?arg="
      (List.replicate 100 { Cid := "QmA" }) 50 2).state.launched.length ≤
      ((List.replicate 100 ({ Cid := "QmA" } : IPFSCIDResponse)).length +
        adjust (List.replicate 100 ({ Cid := "QmA" } : IPFSCIDResponse)).length 50 - 1) /
        adjust (List.replicate 100 ({ Cid := "QmA" } : IPFSCIDResponse)).length 50 :=
  ⟨(Sync_terminates (fun _ => healthy "QmA") "http://src" "http://dst" "/api/v0/cat?arg="
      (List.replicate 100 { Cid := "QmA" }) 50 2 (by decide) (by decide)).2.2.2.2.1,
   (Sync_terminates (fun _ => healthy "QmA") "http://src" "http://dst" "/api/v0/cat?arg="
      (List.replicate 100 { Cid := "QmA" }) 50 2 (by decide) (by decide)).2.2.2.2.2.1⟩

set_option maxRecDepth 100000 in
/-- C10 (fails on the code): for a list of 51 CIDs and the batch size 50 the effective
batch size is 50 and `ceil (51 / 50)` is 2. The first outer iteration moves the index
from 0 to 50 and is joined. The second starts at index 50, launches one worker, moves
the index to 51, by 1 and not by 50, and reads `cids[51]`: the loop is not left through
its condition `i < length`, the run ends in the panic
`index out of range [51] with length 51` and prints no summary. -/
theorem Sync_51_by_50_last_iteration_advances_by_one (extra : Nat) :
    adjust (List.replicate 51 ({ Cid := "QmA" } : IPFSCIDResponse)).length 50 = 50 ∧
    (Sync (fun _ => healthy "QmA") "http://src" "http://dst" "/api/v0/cat?arg="
      (List.replicate 51 { Cid := "QmA" }) 50 (2 + extra)).state.windows.map List.length
        = [50] ∧
    (Sync (fun _ => healthy "QmA") "http://src" "http://dst" "/api/v0/cat?arg="
      (List.replicate 51 { Cid := "QmA" }) 50 (2 + extra)).state.window.length = 1 ∧
    (Sync (fun _ => healthy "QmA") "http://src" "http://dst" "/api/v0/cat?arg="
      (List.replicate 51 { Cid := "QmA" }) 50 (2 + extra)).state.i = 51 ∧
    (Sync (fun _ => healthy "QmA") "http://src" "http://dst" "/api/v0/cat?arg="
      (List.replicate 51 { Cid := "QmA" }) 50 (2 + extra)).panic? = some (51, 51) ∧
    (Sync (fun _ => healthy "QmA") "http://src" "http://dst" "/api/v0/cat?arg="
      (List.replicate 51 { Cid := "QmA" }) 50 (2 + extra)).summary? = none := by
  rw [Sync_more_fuel _ _ _ _ _ _ 2 extra (by decide)]
  decide

/-! ## Goroutines of one window -/

theorem interleave_alone_todo :
    ∀ (cs : List Cell) (m : Mem),
      interleave m [{ todo := cs, loaded := none }] (List.replicate (2 * cs.length) 0) =
        ({ failed := m.failed + cs.count Cell.failed,
           synced := m.synced + cs.count Cell.synced }, [{ todo := [], loaded := none }]) := by
  intro cs
  induction cs with
  | nil => intro m; simp [interleave]
  | cons c cs ih =>
    intro m
    have h2 : 2 * (c :: cs).length = (2 * cs.length + 1) + 1 := by simp; omega
    rw [h2, List.replicate_succ, List.replicate_succ]
    simp only [interleave, List.getElem?_cons_zero, Goroutine.step, List.set_cons_zero]
    rw [ih]
    cases c <;> simp [Mem.write, Mem.read, List.count_cons] <;> omega

/-- A goroutine that runs with no other goroutine moving leaves the counters
`AsyncPostIPFS` computes: the two-step reading of `*p += 1` agrees with the function
when nothing interferes. -/
theorem interleave_alone (u : Utils) (src dst cidID : String)
    (counter length failed synced : Int) :
    interleave { failed := failed, synced := synced }
        [Goroutine.start u src dst cidID counter length]
        (List.replicate (2 * (Goroutine.start u src dst cidID counter length).todo.length) 0) =
      ({ failed := (AsyncPostIPFS u src dst cidID counter length failed synced).failed,
         synced := (AsyncPostIPFS u src dst cidID counter length failed synced).synced },
       [{ todo := [], loaded := none }]) := by
  have h := AsyncPostIPFS_counters u src dst cidID counter length failed synced
  rw [h.1, h.2, AsyncPostIPFS_trace_counters u src dst cidID counter length failed synced 0 0]
  exact interleave_alone_todo _ _

/-- C8 (fails on the code): the increments of `AsyncPostIPFS` are plain reads followed
by plain writes. The run over `["cid1", "cid2"]` puts both workers in one window; with
both fetches failing they perform M = 2 increments. Run one after the other they leave
`failed = 2`; when both read `failed` before either writes it, both goroutines finish
and the counters are `failed = 1, synced = 0`, so one update is lost and the sum is 1,
not 2. -/
theorem concurrent_increments_lose_an_update :
    (Sync (fun _ => sourceDown) "http://src" "http://dst" "/api/v0/cat?arg="
      [{ Cid := "cid1" }, { Cid := "cid2" }] 50 1).state.windows =
        [[{ c := 1, cidID := "cid1" }, { c := 2, cidID := "cid2" }]] ∧
    (twoFailingFetches.map fun g => g.todo.length).sum = 2 ∧
    (interleave { failed := 0, synced := 0 } twoFailingFetches [0, 0, 1, 1]).1 =
      { failed := 2, synced := 0 } ∧
    (interleave { failed := 0, synced := 0 } twoFailingFetches [0, 1, 0, 1]).2.all
      Goroutine.finished = true ∧
    (interleave { failed := 0, synced := 0 } twoFailingFetches [0, 1, 0, 1]).1 =
      { failed := 1, synced := 0 } := by
  decide

end IpfsMgm
